import Mathlib

/-!
Verification of `src/hash_test/parse_critical_values.py`.

The script has two functions:

* `parse(filepath)` — iterates `enumerate(f.readlines())` (note: the name `f`
  is never bound), strips each line, skips blank lines, splits the line on
  whitespace; at raw line index 0 it reads the probability header
  (`[float(s) for s in vals[1:]]`), otherwise it reads a data row
  (`v = int(vals[0].strip('.'))`, `cs = [float(c) for c in vals[1:]]`,
  `table[v] = cs`).
* `write_csv(probs, table)` — `open(sys.stdout, 'w')` (note: `open` requires a
  path, not a stream object), then writes the row `['v', *probs]` followed by
  one row `[v, *cs]` per table entry.

The embedding below models the text manipulation exactly (Python `str.strip`,
`str.split`, `str.strip('.')`), models `float(...)` on the decimal/exponent
literal forms with exact rational arithmetic, models `int(...)` on optionally
signed digit strings, and models the Python `dict` as an insertion-ordered
association list with last-write-wins assignment. Errors (`ValueError` from a
failed coercion, `NameError` from the unbound `f`, `TypeError` from the bad
`open` call) are modelled with `Except`.
-/

/-- Python `ValueError` / `NameError` / `TypeError`, the three runtime errors
the script can raise. -/
inductive PyErr where
  | valueError (msg : String)
  | nameError (name : String)
  | typeError (msg : String)
  deriving Repr, DecidableEq

instance {ε α : Type _} [DecidableEq ε] [DecidableEq α] : DecidableEq (Except ε α) :=
  fun x y =>
  match x, y with
  | .error a, .error b =>
    if h : a = b then isTrue (congrArg Except.error h)
    else isFalse (fun hc => h (Except.error.inj hc))
  | .error _, .ok _ => isFalse (fun hc => Except.noConfusion hc)
  | .ok _, .error _ => isFalse (fun hc => Except.noConfusion hc)
  | .ok a, .ok b =>
    if h : a = b then isTrue (congrArg Except.ok h)
    else isFalse (fun hc => h (Except.ok.inj hc))

/-- The `table` dict: an insertion-ordered association list from `int` keys to
lists of floats (modelled as rationals). -/
abbrev Table := List (Int × List ℚ)

/-- ASCII whitespace stripped by Python `str.strip()` (space, tab, newline,
carriage return, vertical tab, form feed); the embedding models ASCII input. -/
def isPySpace (c : Char) : Bool :=
  c == ' ' || c == '\t' || c == '\n' || c == '\r' || c == '\x0b' || c == '\x0c'

/-- Python `line.strip()`: remove leading and trailing whitespace. -/
def pyStrip (s : String) : String :=
  ⟨((s.data.dropWhile isPySpace).reverse.dropWhile isPySpace).reverse⟩

/-- Helper for `pySplit`: scan the characters, accumulating the current token
(in reverse) in `acc`. -/
def pySplitAux : List Char → List Char → List String
  | [], [] => []
  | [], acc => [⟨acc.reverse⟩]
  | c :: cs, acc =>
    if isPySpace c then
      match acc with
      | [] => pySplitAux cs []
      | _ => ⟨acc.reverse⟩ :: pySplitAux cs []
    else pySplitAux cs (c :: acc)

/-- Python `line.split()` with no argument: split on runs of whitespace,
discarding empty tokens. -/
def pySplit (s : String) : List String :=
  pySplitAux s.data []

/-- Python `s.strip('.')`: remove leading and trailing `'.'` characters (and
only those; interior periods are kept). -/
def pyStripDots (s : String) : String :=
  ⟨((s.data.dropWhile (· == '.')).reverse.dropWhile (· == '.')).reverse⟩

/-- Numeric value of a list of ASCII digits, most significant first. -/
def natOfDigits (ds : List Char) : Nat :=
  ds.foldl (fun n c => 10 * n + (c.toNat - 48)) 0

/-- Split off the longest prefix of ASCII digits. -/
def takeDigits : List Char → List Char × List Char
  | [] => ([], [])
  | c :: cs =>
    if c.isDigit then
      let (ds, rest) := takeDigits cs
      (c :: ds, rest)
    else ([], c :: cs)

/-- Helper for `parseIntString`: an optionally signed digit string must consist
of one or more digits after the sign. -/
def intDigits (sg : Int) : List Char → Option Int
  | [] => none
  | ds => if ds.all Char.isDigit then some (sg * (natOfDigits ds : Int)) else none

/-- Python `int(s)` on the forms the script can meet: an optional sign followed
by one or more ASCII digits; anything else raises `ValueError`. -/
def parseIntString (s : String) : Option Int :=
  match s.data with
  | '+' :: r => intDigits 1 r
  | '-' :: r => intDigits (-1) r
  | r => intDigits 1 r

/-- Exponent part of a float literal: optional sign, one or more digits,
nothing after.  Scales the mantissa by the power of ten. -/
def parseExp (mant : ℚ) (r : List Char) : Option ℚ :=
  let (pos, ds) : Bool × List Char :=
    match r with
    | '+' :: r2 => (true, r2)
    | '-' :: r2 => (false, r2)
    | r2 => (true, r2)
  let (eds, rest) := takeDigits ds
  if eds.isEmpty || !rest.isEmpty then none
  else if pos then some (mant * ((10 : ℚ) ^ natOfDigits eds))
  else some (mant / ((10 : ℚ) ^ natOfDigits eds))

/-- Float literal body: `digits [. digits] [exponent]` with at least one
mantissa digit (so `"1."`, `".5"`, `"3.841"`, `"1e3"` are accepted). -/
def parseFloatCore (cs : List Char) : Option ℚ :=
  let (ip, r1) := takeDigits cs
  let hasDot : Bool := match r1 with | '.' :: _ => true | _ => false
  let (fp, r2) : List Char × List Char :=
    match r1 with
    | '.' :: r => takeDigits r
    | _ => ([], r1)
  if ip.isEmpty && fp.isEmpty then none
  else
    let mant : ℚ := (natOfDigits (ip ++ fp) : ℚ) / (10 : ℚ) ^ fp.length
    match if hasDot then r2 else r1 with
    | [] => some mant
    | 'e' :: r => parseExp mant r
    | 'E' :: r => parseExp mant r
    | _ => none

/-- Python `float(s)` on the decimal and exponent literal forms (optional sign
included); the values are exact rationals, which represent the decimal
literals of this program injectively. -/
def parseFloat (s : String) : Option ℚ :=
  match s.data with
  | '+' :: r => parseFloatCore r
  | '-' :: r => (parseFloatCore r).map Neg.neg
  | r => parseFloatCore r

/-- `float(c)` as the script calls it: a failed coercion raises `ValueError`. -/
def float_ (s : String) : Except PyErr ℚ :=
  match parseFloat s with
  | some q => .ok q
  | none => .error (.valueError ("could not convert string to float: " ++ s))

/-- `int(s)` as the script calls it: a failed coercion raises `ValueError`. -/
def int_ (s : String) : Except PyErr Int :=
  match parseIntString s with
  | some n => .ok n
  | none => .error (.valueError ("invalid literal for int() with base 10: " ++ s))

/-- The list comprehension `[float(x) for x in l]`: left to right, stopping at
the first coercion failure. -/
def floatList : List String → Except PyErr (List ℚ)
  | [] => .ok []
  | s :: ss =>
    match float_ s with
    | .error e => .error e
    | .ok q =>
      match floatList ss with
      | .error e => .error e
      | .ok qs => .ok (q :: qs)

/-- Python `table[v] = cs` on a dict: replace the value in place if the key is
present (keeping its insertion position), otherwise append the new entry. -/
def dictInsert (t : Table) (k : Int) (v : List ℚ) : Table :=
  if t.any (fun p => p.1 == k) then
    t.map (fun p => if p.1 == k then (k, v) else p)
  else t ++ [(k, v)]

/-- One iteration of the parsing loop, at raw line index `i` with state
`(probs, table)`: strip the line, skip it if blank, otherwise split it; index 0
is the header branch, every other index is the data-row branch. -/
def parseStep (i : Nat) (st : List ℚ × Table) (line : String) :
    Except PyErr (List ℚ × Table) :=
  let stripped := pyStrip line
  if stripped = "" then .ok st
  else
    let vals := pySplit stripped
    if i = 0 then
      match floatList vals.tail with
      | .error e => .error e
      | .ok probs => .ok (probs, st.2)
    else
      match int_ (pyStripDots (vals.headD "")) with
      | .error e => .error e
      | .ok v =>
        match floatList vals.tail with
        | .error e => .error e
        | .ok cs => .ok (st.1, dictInsert st.2 v cs)

/-- The parsing loop `for i, line in enumerate(...)`, threading the state. -/
def parseLoop : Nat → (List ℚ × Table) → List String → Except PyErr (List ℚ × Table)
  | _, st, [] => .ok st
  | i, st, l :: ls =>
    match parseStep i st l with
    | .error e => .error e
    | .ok st' => parseLoop (i + 1) st' ls

/-- The body of `parse` applied to the lines of the input: `probs` and `table`
start empty and the loop runs over the enumerated lines. -/
def parse (lines : List String) : Except PyErr (List ℚ × Table) :=
  parseLoop 0 ([], []) lines

/-- The row key the data-row branch computes from a line:
`int(vals[0].strip('.'))`. -/
def keyOf (line : String) : Except PyErr Int :=
  int_ (pyStripDots ((pySplit (pyStrip line)).headD ""))

/-- A CSV field as handed to `csv.writer.writerow`: the literal label `'v'`,
an integer key, or a float value.  The writer stringifies each field with the
standard CSV encoding; the embedding keeps the field's value. -/
inductive CsvField where
  | label (s : String)
  | intVal (n : Int)
  | floatVal (q : ℚ)
  deriving Repr, DecidableEq

/-- The state of `wr = csv.writer(f)`: the rows written so far, in order. -/
structure CsvWriter where
  rows : List (List CsvField)
  deriving Repr, DecidableEq

/-- One `wr.writerow(row)` call: append the row to the output. -/
def writerow (w : CsvWriter) (r : List CsvField) : CsvWriter :=
  ⟨w.rows ++ [r]⟩

/-- The loop `for v, cs in table.items(): wr.writerow([v, *cs])`, iterating the
dict in insertion order. -/
def write_csv_loop (w : CsvWriter) : Table → CsvWriter
  | [] => w
  | vc :: rest => write_csv_loop (writerow w (.intVal vc.1 :: vc.2.map .floatVal)) rest

/-- The rows `write_csv` emits through the csv writer: first
`wr.writerow(['v', *probs])`, then one row per table entry. -/
def write_csv (probs : List ℚ) (table : Table) : List (List CsvField) :=
  (write_csv_loop (writerow ⟨[]⟩ (.label "v" :: probs.map .floatVal)) table).rows

/-- Reading one written CSV field back as a float: a float field reads back to
its value (Python guarantees `float(repr(x)) == x`), an integer field reads as
a float, and a label reads back as whatever `float(...)` makes of its text. -/
def fieldToFloat : CsvField → Option ℚ
  | .floatVal q => some q
  | .intVal n => some (n : ℚ)
  | .label s => parseFloat s

/-- Reading a list of written fields back as floats (the round-trip read of one
CSV row, left to right). -/
def fieldsToFloats : List CsvField → Option (List ℚ)
  | [] => some []
  | f :: fs =>
    match fieldToFloat f with
    | none => none
    | some q =>
      match fieldsToFloats fs with
      | none => none
      | some qs => some (q :: qs)

/-- Names bound in the scope of `parse`'s body when line 7 evaluates
`f.readlines()`: the parameter, the locals assigned before the loop, and the
module-level globals of the script.  The name `f` is not among them. -/
def parseScopeNames : List String :=
  ["filepath", "probs", "table", "sys", "csv", "parse", "write_csv", "__name__"]

/-- Python name resolution: evaluating a name succeeds exactly when it is
bound in scope, otherwise it raises `NameError`. -/
def lookupName (n : String) : Except PyErr Unit :=
  if n ∈ parseScopeNames then .ok () else .error (.nameError n)

/-- The operation `parse` as written: line 7 must resolve the name `f` before
anything is read; only if that succeeded would the loop run over the lines of
the input file (`fileLines` stands for the lines the file would yield). -/
def parse_as_written (filepath : String) (fileLines : List String) :
    Except PyErr (List ℚ × Table) :=
  match lookupName "f" with
  | .error e => .error e
  | .ok _ => parse fileLines

/-- The first argument of Python `open`: a path (or byte path or file
descriptor) is accepted; any other object raises `TypeError`. -/
inductive PyFileArg where
  | path (s : String)
  | fd (n : Int)
  | stream (name : String)
  deriving Repr, DecidableEq

/-- Python `open(file, mode)`: type-check the `file` argument; a stream object
such as `sys.stdout` is not a path and raises `TypeError`. -/
def pyOpen (file : PyFileArg) (mode : String) : Except PyErr Unit :=
  match file with
  | .path _ => .ok ()
  | .fd _ => .ok ()
  | .stream _ =>
      .error (.typeError "expected str, bytes or os.PathLike object, not TextIOWrapper")

/-- The object `sys.stdout`: a text stream, not a path. -/
def sys_stdout : PyFileArg := .stream "stdout"

/-- The operation `write_csv` as written: `with open(sys.stdout, 'w') as f`
runs first; only if it succeeded would the writer emit its rows. -/
def write_csv_as_written (probs : List ℚ) (table : Table) :
    Except PyErr (List (List CsvField)) :=
  match pyOpen sys_stdout "w" with
  | .error e => .error e
  | .ok _ => .ok (write_csv probs table)

theorem parseLoop_cons (i : Nat) (st : List ℚ × Table) (l : String) (ls : List String) :
    parseLoop i st (l :: ls) =
      match parseStep i st l with
      | .error e => .error e
      | .ok st2 => parseLoop (i + 1) st2 ls := rfl

theorem parseStep_blank (i : Nat) (st : List ℚ × Table) (line : String)
    (h : pyStrip line = "") : parseStep i st line = .ok st := by
  simp [parseStep, h]

theorem parseStep_pos (i j : Nat) (hi : i ≠ 0) (hj : j ≠ 0) (st : List ℚ × Table)
    (line : String) : parseStep i st line = parseStep j st line := by
  simp [parseStep, hi, hj]

theorem parseLoop_pos : ∀ (ls : List String) (i j : Nat), i ≠ 0 → j ≠ 0 →
    ∀ st : List ℚ × Table, parseLoop i st ls = parseLoop j st ls
  | [], _, _, _, _, _ => rfl
  | l :: ls, i, j, hi, hj, st => by
    rw [parseLoop_cons, parseLoop_cons, parseStep_pos i j hi hj st l]
    cases parseStep j st l with
    | error e => rfl
    | ok st2 =>
      exact parseLoop_pos ls (i + 1) (j + 1) (Nat.succ_ne_zero i) (Nat.succ_ne_zero j) st2

theorem parseStep_pos_fst (i : Nat) (hi : i ≠ 0) (st : List ℚ × Table) (line : String)
    (st2 : List ℚ × Table) (h : parseStep i st line = .ok st2) : st2.1 = st.1 := by
  simp only [parseStep] at h
  split at h
  · obtain rfl := Except.ok.inj h
    rfl
  · split at h
    · exact Except.noConfusion h
    · split at h
      · exact Except.noConfusion h
      · obtain rfl := Except.ok.inj h
        rfl

theorem parseLoop_fst : ∀ (ls : List String) (i : Nat), i ≠ 0 →
    ∀ (st res : List ℚ × Table), parseLoop i st ls = .ok res → res.1 = st.1
  | [], _, _, _, _, h => by
    obtain rfl := Except.ok.inj h
    rfl
  | l :: ls, i, hi, st, res, h => by
    rw [parseLoop_cons] at h
    split at h
    · exact Except.noConfusion h
    · rename_i st2 heq
      have h1 := parseStep_pos_fst i hi st l st2 heq
      have h2 := parseLoop_fst ls (i + 1) (Nat.succ_ne_zero i) st2 res h
      rw [h2, h1]

theorem parseLoop_insert_blank : ∀ (a : List String) (i : Nat), i ≠ 0 →
    ∀ (st : List ℚ × Table) (w : String) (b : List String), pyStrip w = "" →
    parseLoop i st (a ++ w :: b) = parseLoop i st (a ++ b)
  | [], i, hi, st, w, b, hw => by
    show parseLoop i st (w :: b) = parseLoop i st b
    rw [parseLoop_cons, parseStep_blank i st w hw]
    exact parseLoop_pos b (i + 1) i (Nat.succ_ne_zero i) hi st
  | x :: a, i, hi, st, w, b, hw => by
    show parseLoop i st (x :: (a ++ w :: b)) = parseLoop i st (x :: (a ++ b))
    rw [parseLoop_cons, parseLoop_cons]
    cases parseStep i st x with
    | error e => rfl
    | ok st2 => exact parseLoop_insert_blank a (i + 1) (Nat.succ_ne_zero i) st2 w b hw

theorem dictInsert_not_mem (t : Table) (k : Int) (v : List ℚ)
    (h : k ∉ t.map Prod.fst) : dictInsert t k v = t ++ [(k, v)] := by
  unfold dictInsert
  rw [if_neg]
  intro hc
  rw [List.any_eq_true] at hc
  obtain ⟨p, hp, hpk⟩ := hc
  exact h (List.mem_map.mpr ⟨p, hp, by simpa using hpk⟩)

theorem write_csv_loop_rows : ∀ (t : Table) (w : CsvWriter),
    (write_csv_loop w t).rows =
      w.rows ++ t.map (fun vc => CsvField.intVal vc.1 :: vc.2.map CsvField.floatVal)
  | [], w => by simp [write_csv_loop]
  | vc :: rest, w => by
    simp [write_csv_loop, write_csv_loop_rows rest, writerow]

theorem write_csv_eq (probs : List ℚ) (table : Table) :
    write_csv probs table =
      (CsvField.label "v" :: probs.map CsvField.floatVal) ::
        table.map (fun vc => CsvField.intVal vc.1 :: vc.2.map CsvField.floatVal) := by
  simp [write_csv, write_csv_loop_rows, writerow]

theorem fieldsToFloats_map_floatVal : ∀ qs : List ℚ,
    fieldsToFloats (qs.map CsvField.floatVal) = some qs
  | [] => rfl
  | q :: qs => by simp [fieldsToFloats, fieldToFloat, fieldsToFloats_map_floatVal qs]

/-- C1: parsing the three-line concrete input from the spec (header line
`df  .995 .99 .05`, then rows keyed by `1.` and `2.`) yields
`probs = [0.995, 0.99, 0.05]` and
`table = {1: [0.0000393, 0.000157, 3.841], 2: [0.0100, 0.0201, 5.991]}`. -/
theorem C1_concrete_input :
    parse ["df  .995 .99 .05",
           "1.  0.0000393 0.000157 3.841",
           "2.  0.0100 0.0201 5.991"] =
      .ok ([995/1000, 99/100, 5/100],
           [(1, [393/10000000, 157/1000000, 3841/1000]),
            (2, [100/10000, 201/10000, 5991/1000])]) := by
  simp [parse, parseLoop, parseStep, pyStrip, pySplit, pySplitAux, isPySpace,
    pyStripDots, floatList, float_, parseFloat, parseFloatCore, parseExp,
    takeDigits, natOfDigits, int_, parseIntString, intDigits, dictInsert]
  norm_num

/-- C8: for every `(probs, table)` pair, the writer emits a CSV document whose
first row is the label `v` followed by each probability of `probs` in order,
followed by one row per table entry holding the integer key and then that
entry's floats in order. -/
theorem C8_emitted_rows (probs : List ℚ) (table : Table) :
    write_csv probs table =
      (CsvField.label "v" :: probs.map CsvField.floatVal) ::
        table.map (fun vc => CsvField.intVal vc.1 :: vc.2.map CsvField.floatVal) :=
  write_csv_eq probs table

/-- C6: round-trip — reading the CSV header row back as floats after stripping
the leading `v` yields exactly `probs`, and reading each subsequent row's
fields after the first yields exactly the corresponding table entry's value
list. -/
theorem C6_round_trip (probs : List ℚ) (table : Table) :
    fieldsToFloats ((write_csv probs table).headD []).tail = some probs ∧
    (write_csv probs table).tail.map (fun row => fieldsToFloats row.tail) =
      table.map (fun vc => some vc.2) := by
  rw [write_csv_eq]
  refine ⟨by simp [fieldsToFloats_map_floatVal], ?_⟩
  simp [fieldsToFloats_map_floatVal]

/-- C9: `parse` as written evaluates the never-bound name `f` before reading
anything, so for every filepath argument and every would-be file content it
raises `NameError` and never returns a `(probs, table)` pair. -/
theorem C9_unbound_name (filepath : String) (fileLines : List String) :
    parse_as_written filepath fileLines = .error (.nameError "f") := by
  have h : lookupName "f" = .error (.nameError "f") := rfl
  unfold parse_as_written
  rw [h]

/-- C10: `write_csv` as written passes the stream object `sys.stdout` where
`open` requires a path, so for every `(probs, table)` pair opening the sink
fails with `TypeError` and no CSV row is written. -/
theorem C10_bad_open (probs : List ℚ) (table : Table) :
    write_csv_as_written probs table =
      .error (.typeError "expected str, bytes or os.PathLike object, not TextIOWrapper") :=
  rfl

/-- C2 counterexample: with a blank first physical line, the first non-empty
line `"1 2"` is treated as a data row, although its trailing token `"2"` does
parse as the float `2`; the produced header is `[]`, not `[2]`. -/
theorem C2_counterexample :
    parse ["", "1 2"] = .ok ([], [(1, [2])]) ∧
    parseFloat "2" = some 2 ∧
    ¬ ∃ t : Table, parse ["", "1 2"] = .ok ([2], t) := by
  have h1 : parse ["", "1 2"] = .ok ([], [(1, [2])]) := by
    simp [parse, parseLoop, parseStep, pyStrip, pySplit, pySplitAux, isPySpace,
      pyStripDots, floatList, float_, parseFloat, parseFloatCore, parseExp,
      takeDigits, natOfDigits, int_, parseIntString, intDigits, dictInsert]
  refine ⟨h1, by simp [parseFloat, parseFloatCore, takeDigits, natOfDigits], ?_⟩
  rintro ⟨t, ht⟩
  rw [h1] at ht
  exact absurd (Except.ok.inj ht) (by simp)

/-- C2 amended: the probability header equals the whitespace tokens of the
line at raw index 0, skipping its first token, each coerced to a float — but
only when that first physical line is non-blank; when blank lines precede the
first non-empty line the header branch never runs. -/
theorem C2_amended_header (l0 : String) (ls : List String) (probs : List ℚ) (t : Table)
    (h0 : pyStrip l0 ≠ "") (hok : parse (l0 :: ls) = .ok (probs, t)) :
    floatList (pySplit (pyStrip l0)).tail = .ok probs := by
  cases hfl : floatList (pySplit (pyStrip l0)).tail with
  | error e =>
    simp only [parse] at hok
    rw [parseLoop_cons] at hok
    have hstep : parseStep 0 ([], []) l0 = .error e := by
      simp [parseStep, h0, hfl]
    rw [hstep] at hok
    exact Except.noConfusion hok
  | ok ps =>
    simp only [parse] at hok
    rw [parseLoop_cons] at hok
    have hstep : parseStep 0 ([], []) l0 = .ok (ps, []) := by
      simp [parseStep, h0, hfl]
    rw [hstep] at hok
    have hfst := parseLoop_fst ls 1 Nat.one_ne_zero (ps, []) (probs, t) hok
    exact congrArg Except.ok hfst.symm

/-- C2 witness: a concrete instance of the amended header property. -/
theorem C2_amended_witness :
    floatList (pySplit (pyStrip "h 2")).tail = .ok [2] :=
  C2_amended_header "h 2" ["1 3"] [2] [(1, [3])] (by decide)
    (by simp [parse, parseLoop, parseStep, pyStrip, pySplit, pySplitAux, isPySpace,
      pyStripDots, floatList, float_, parseFloat, parseFloatCore, parseExp,
      takeDigits, natOfDigits, int_, parseIntString, intDigits, dictInsert])

/-- C3 counterexample: inserting a blank line at position 0 — in front of the
header line, not replacing it — changes the parsed output. -/
theorem C3_counterexample :
    pyStrip "" = "" ∧
    parse ["", "1 2"] ≠ parse ["1 2"] := by
  refine ⟨rfl, ?_⟩
  have h1 : parse ["", "1 2"] = .ok ([], [(1, [2])]) := by
    simp [parse, parseLoop, parseStep, pyStrip, pySplit, pySplitAux, isPySpace,
      pyStripDots, floatList, float_, parseFloat, parseFloatCore, parseExp,
      takeDigits, natOfDigits, int_, parseIntString, intDigits, dictInsert]
  have h2 : parse ["1 2"] = .ok ([2], []) := by
    simp [parse, parseLoop, parseStep, pyStrip, pySplit, pySplitAux, isPySpace,
      pyStripDots, floatList, float_, parseFloat, parseFloatCore, parseExp,
      takeDigits, natOfDigits, int_, parseIntString, intDigits, dictInsert]
  rw [h1, h2]
  intro hc
  exact absurd (Except.ok.inj hc) (by simp)

/-- C3 amended: inserting a blank line at any position after the first line
leaves the parsed output pair unchanged (inserting in front of a non-blank
first line can change it, as the counterexample shows). -/
theorem C3_blank_insert (l0 w : String) (a b : List String) (hw : pyStrip w = "") :
    parse (l0 :: (a ++ w :: b)) = parse (l0 :: (a ++ b)) := by
  simp only [parse]
  rw [parseLoop_cons, parseLoop_cons]
  cases parseStep 0 ([], []) l0 with
  | error e => rfl
  | ok st2 => exact parseLoop_insert_blank a 1 Nat.one_ne_zero st2 w b hw

/-- C3 witness: a concrete blank-line insertion after the header. -/
theorem C3_blank_insert_witness :
    parse ["1 2", "", "2 3"] = parse ["1 2", "2 3"] :=
  C3_blank_insert "1 2" "" [] ["2 3"] rfl

theorem dropWhile_dot_replicate (a : Nat) (xs : List Char) :
    List.dropWhile (· == '.') (List.replicate a '.' ++ xs) =
      List.dropWhile (· == '.') xs := by
  induction a with
  | zero => rfl
  | succ n ih => simpa [List.replicate_succ, List.dropWhile] using ih

theorem dropWhile_dot_no_head (xs : List Char) (h : xs.head? ≠ some '.') :
    List.dropWhile (· == '.') xs = xs := by
  cases xs with
  | nil => rfl
  | cons c cs =>
    have hc : c ≠ '.' := fun hcc => h (by rw [hcc]; rfl)
    have hb : (c == '.') = false := by simp [hc]
    simp [List.dropWhile, hb]

/-- Behaviour of `s.strip('.')` on a token made of a digit core surrounded by
periods: exactly the surrounding periods are removed. -/
theorem pyStripDots_strips_ends (a b : Nat) (core : List Char)
    (h1 : core.head? ≠ some '.') (h2 : core.getLast? ≠ some '.') :
    pyStripDots ⟨List.replicate a '.' ++ core ++ List.replicate b '.'⟩ = ⟨core⟩ := by
  unfold pyStripDots
  have hdata : (String.mk (List.replicate a '.' ++ core ++ List.replicate b '.')).data
      = List.replicate a '.' ++ (core ++ List.replicate b '.') := by
    simp [List.append_assoc]
  rw [hdata, dropWhile_dot_replicate]
  cases core with
  | nil =>
    have hb : List.dropWhile (· == '.') (List.replicate b '.' ++ ([] : List Char)) =
        List.dropWhile (· == '.') ([] : List Char) := dropWhile_dot_replicate b []
    simp only [List.append_nil] at hb
    simp [hb]
  | cons c cs =>
    have hhead : ((c :: cs) ++ List.replicate b '.').head? ≠ some '.' := by
      simpa using h1
    rw [dropWhile_dot_no_head _ hhead]
    rw [List.reverse_append, List.reverse_replicate, dropWhile_dot_replicate]
    have hrev : ((c :: cs).reverse).head? ≠ some '.' := by
      rw [List.head?_reverse]
      exact h2
    rw [dropWhile_dot_no_head _ hrev, List.reverse_reverse]

/-- C4 counterexample: the key token `"1.2"` keeps its interior period under
`strip('.')`, so the integer coercion fails — the claim would have it parse to
the integer `12` (which is what removing every period would give). -/
theorem C4_counterexample :
    pyStripDots "1.2" = "1.2" ∧
    parse ["h 1", "1.2 3"] =
      .error (.valueError "invalid literal for int() with base 10: 1.2") ∧
    String.mk ("1.2".data.filter (fun c => c != '.')) = "12" ∧
    parseIntString "12" = some 12 := by
  refine ⟨by decide, ?_, by decide, by decide⟩
  simp [parse, parseLoop, parseStep, pyStrip, pySplit, pySplitAux, isPySpace,
    pyStripDots, floatList, float_, parseFloat, parseFloatCore, parseExp,
    takeDigits, natOfDigits, int_, parseIntString, intDigits, dictInsert]

/-- C4 amended: the row key is obtained by stripping periods from the two ends
of the line's first token and coercing to an integer: a token such as `"12."`
parses to `12`; periods are removed only at the ends, so a token with an
interior period (such as `"1.2"`) makes the coercion fail instead. -/
theorem C4_amended_key :
    (∀ (i : Nat) (st : List ℚ × Table), i ≠ 0 →
        parseStep i st "12. 3" = .ok (st.1, dictInsert st.2 12 [3])) ∧
    (∀ (a b : Nat) (core : List Char), core.head? ≠ some '.' →
        core.getLast? ≠ some '.' →
        pyStripDots ⟨List.replicate a '.' ++ core ++ List.replicate b '.'⟩ = ⟨core⟩) ∧
    (∀ (i : Nat) (st : List ℚ × Table), i ≠ 0 →
        parseStep i st "1.2 3" =
          .error (.valueError "invalid literal for int() with base 10: 1.2")) := by
  refine ⟨?_, pyStripDots_strips_ends, ?_⟩
  · intro i st hi
    simp [parseStep, hi, pyStrip, pySplit, pySplitAux, isPySpace, pyStripDots,
      floatList, float_, parseFloat, parseFloatCore, parseExp, takeDigits,
      natOfDigits, int_, parseIntString, intDigits]
  · intro i st hi
    simp [parseStep, hi, pyStrip, pySplit, pySplitAux, isPySpace, pyStripDots,
      floatList, float_, parseFloat, parseFloatCore, parseExp, takeDigits,
      natOfDigits, int_, parseIntString, intDigits]

/-- C4 witness: the key token `"12."` on a concrete data line yields key 12. -/
theorem C4_amended_key_witness :
    parseStep 1 ([], []) "12. 3" = .ok ([], [(12, [3])]) :=
  C4_amended_key.1 1 ([], []) Nat.one_ne_zero

theorem floatList_bad : ∀ (toks : List String) (tok : String), tok ∈ toks →
    parseFloat tok = none → ∃ e, floatList toks = .error e
  | [], tok, hmem, _ => nomatch hmem
  | t :: ts, tok, hmem, hbad => by
    unfold floatList
    cases hft : float_ t with
    | error e => exact ⟨e, rfl⟩
    | ok q =>
      rcases List.mem_cons.mp hmem with rfl | hmem2
      · unfold float_ at hft
        rw [hbad] at hft
        exact Except.noConfusion hft
      · obtain ⟨e, he⟩ := floatList_bad ts tok hmem2 hbad
        rw [he]
        exact ⟨e, rfl⟩

theorem parseStep_bad (i : Nat) (hi : i ≠ 0) (st : List ℚ × Table) (line : String)
    (hnb : pyStrip line ≠ "") (tok : String)
    (htok : tok ∈ (pySplit (pyStrip line)).tail) (hbad : parseFloat tok = none) :
    ∃ e, parseStep i st line = .error e := by
  obtain ⟨e2, he2⟩ := floatList_bad _ tok htok hbad
  simp only [parseStep]
  rw [if_neg hnb, if_neg hi]
  cases hint : int_ (pyStripDots ((pySplit (pyStrip line)).headD "")) with
  | error e => exact ⟨e, rfl⟩
  | ok v =>
    rw [he2]
    exact ⟨e2, rfl⟩

theorem parseLoop_bad : ∀ (ls : List String) (i : Nat) (st : List ℚ × Table)
    (j : Nat) (hlt : j < ls.length), i + j ≠ 0 →
    pyStrip (ls.get ⟨j, hlt⟩) ≠ "" →
    ∀ tok, tok ∈ (pySplit (pyStrip (ls.get ⟨j, hlt⟩))).tail →
    parseFloat tok = none → ∃ e, parseLoop i st ls = .error e
  | l :: ls, i, st, 0, _, hij, hnb, tok, htok, hbad => by
    have hi : i ≠ 0 := by simpa using hij
    obtain ⟨e, he⟩ := parseStep_bad i hi st l hnb tok htok hbad
    rw [parseLoop_cons, he]
    exact ⟨e, rfl⟩
  | l :: ls, i, st, j + 1, hlt, _, hnb, tok, htok, hbad => by
    rw [parseLoop_cons]
    cases hps : parseStep i st l with
    | error e => exact ⟨e, rfl⟩
    | ok st2 =>
      exact parseLoop_bad ls (i + 1) st2 j (Nat.lt_of_succ_lt_succ hlt)
        (by omega) hnb tok htok hbad

/-- C7: an input containing a data line (a non-blank line at index at least 1)
with a value token that does not coerce to a float makes the whole parse fail
with an error: the malformed row is never skipped and no output pair is
returned. -/
theorem C7_malformed_aborts (lines : List String) (j : Nat) (hj : 1 ≤ j)
    (hlt : j < lines.length) (tok : String)
    (hnb : pyStrip (lines.get ⟨j, hlt⟩) ≠ "")
    (htok : tok ∈ (pySplit (pyStrip (lines.get ⟨j, hlt⟩))).tail)
    (hbad : parseFloat tok = none) :
    ∃ e, parse lines = .error e :=
  parseLoop_bad lines 0 ([], []) j hlt (by omega) hnb tok htok hbad

/-- C7 witness: the non-numeric value token `"x"` on the second line aborts
the parse. -/
theorem C7_malformed_aborts_witness :
    ∃ e, parse ["h 1", "2. x"] = .error e :=
  C7_malformed_aborts ["h 1", "2. x"] 1 (by decide) (by decide) "x" (by decide)
    (by decide) (by decide)

theorem dictInsert_length_of_not_mem (t : Table) (k : Int) (v : List ℚ)
    (h : k ∉ t.map Prod.fst) : (dictInsert t k v).length = t.length + 1 := by
  rw [dictInsert_not_mem t k v h]
  simp

theorem dictInsert_keys_of_not_mem (t : Table) (k : Int) (v : List ℚ)
    (h : k ∉ t.map Prod.fst) :
    (dictInsert t k v).map Prod.fst = t.map Prod.fst ++ [k] := by
  rw [dictInsert_not_mem t k v h]
  simp

theorem parseLoop_table_length : ∀ (ls : List String) (i : Nat), i ≠ 0 →
    ∀ (p : List ℚ) (t : Table) (res : List ℚ × Table),
    parseLoop i (p, t) ls = .ok res →
    (∀ l, l ∈ ls → (pyStrip l != "") = true → ∀ k, keyOf l = .ok k →
      k ∉ t.map Prod.fst) →
    (ls.filter (fun l => pyStrip l != "")).Pairwise (fun l1 l2 => keyOf l1 ≠ keyOf l2) →
    res.2.length = t.length + ls.countP (fun l => pyStrip l != "")
  | [], _, _, p, t, res, h, _, _ => by
    obtain rfl := Except.ok.inj h
    simp
  | l :: ls, i, hi, p, t, res, h, hfresh, hpw => by
    by_cases hbl : pyStrip l = ""
    · rw [parseLoop_cons, parseStep_blank i (p, t) l hbl] at h
      have hcount : (l :: ls).countP (fun l2 => pyStrip l2 != "") =
          ls.countP (fun l2 => pyStrip l2 != "") := by
        simp [List.countP_cons, hbl]
      have hfil : (l :: ls).filter (fun l2 => pyStrip l2 != "") =
          ls.filter (fun l2 => pyStrip l2 != "") := by
        simp [List.filter_cons, hbl]
      rw [hcount]
      rw [hfil] at hpw
      exact parseLoop_table_length ls (i + 1) (Nat.succ_ne_zero i) p t res h
        (fun l2 hl2 => hfresh l2 (List.mem_cons_of_mem l hl2)) hpw
    · rw [parseLoop_cons] at h
      split at h
      · exact Except.noConfusion h
      · rename_i st2 heq
        simp only [parseStep] at heq
        rw [if_neg hbl, if_neg hi] at heq
        split at heq
        · exact Except.noConfusion heq
        · rename_i v hkey
          split at heq
          · exact Except.noConfusion heq
          · rename_i cs hfl
            obtain rfl := Except.ok.inj heq
            have hkeyOf : keyOf l = .ok v := hkey
            have hnb : (pyStrip l != "") = true := by simp [hbl]
            have hv : v ∉ t.map Prod.fst :=
              hfresh l (List.mem_cons_self l ls) hnb v hkeyOf
            have hfil : (l :: ls).filter (fun l2 => pyStrip l2 != "") =
                l :: ls.filter (fun l2 => pyStrip l2 != "") := by
              simp [List.filter_cons, hbl]
            rw [hfil] at hpw
            obtain ⟨hhead, htail⟩ := List.pairwise_cons.mp hpw
            have hfresh2 : ∀ l2, l2 ∈ ls → (pyStrip l2 != "") = true →
                ∀ k, keyOf l2 = .ok k →
                k ∉ (dictInsert t v cs).map Prod.fst := by
              intro l2 hl2 hnb2 k hk2
              rw [dictInsert_keys_of_not_mem t v cs hv]
              intro hkin
              rcases List.mem_append.mp hkin with hold | hnew
              · exact hfresh l2 (List.mem_cons_of_mem l hl2) hnb2 k hk2 hold
              · have hkv : k = v := List.mem_singleton.mp hnew
                have : keyOf l ≠ keyOf l2 :=
                  hhead l2 (List.mem_filter.mpr ⟨hl2, hnb2⟩)
                exact this (by rw [hkeyOf, hk2, hkv])
            have hrec := parseLoop_table_length ls (i + 1) (Nat.succ_ne_zero i)
              p (dictInsert t v cs) res h hfresh2 htail
            rw [hrec, dictInsert_length_of_not_mem t v cs hv]
            have hcount : (l :: ls).countP (fun l2 => pyStrip l2 != "") =
                ls.countP (fun l2 => pyStrip l2 != "") + 1 := by
              simp [List.countP_cons, hbl]
            rw [hcount]
            omega

/-- C5 counterexample: two data lines share the integer key 1; the dict keeps
a single entry (last write wins), so the writer emits 1 data row although the
input has 2 non-blank non-header lines. -/
theorem C5_counterexample :
    parse ["h 1", "1. 2", "1. 3"] = .ok ([1], [(1, [3])]) ∧
    (write_csv [1] [(1, [3])]).length - 1 = 1 ∧
    ["1. 2", "1. 3"].countP (fun l => pyStrip l != "") = 2 := by
  refine ⟨?_, rfl, by decide⟩
  simp [parse, parseLoop, parseStep, pyStrip, pySplit, pySplitAux, isPySpace,
    pyStripDots, floatList, float_, parseFloat, parseFloatCore, parseExp,
    takeDigits, natOfDigits, int_, parseIntString, intDigits, dictInsert]

/-- C5 amended: for well-formed inputs (non-blank header line, parse succeeds)
whose non-blank data lines carry pairwise distinct row keys, the number of CSV
data rows equals the number of non-blank non-header input lines; when keys
repeat, the dict keeps one entry per key (last write wins), as the
counterexample shows. -/
theorem C5_row_count (l0 : String) (rest : List String) (p : List ℚ) (t : Table)
    (h0 : pyStrip l0 ≠ "")
    (hok : parse (l0 :: rest) = .ok (p, t))
    (hdist : (rest.filter (fun l => pyStrip l != "")).Pairwise
      (fun l1 l2 => keyOf l1 ≠ keyOf l2)) :
    (write_csv p t).length - 1 = rest.countP (fun l => pyStrip l != "") := by
  simp only [parse] at hok
  rw [parseLoop_cons] at hok
  split at hok
  · exact Except.noConfusion hok
  · rename_i st2 heq
    have h2 : st2.2 = ([] : Table) := by
      simp only [parseStep] at heq
      rw [if_neg h0, if_pos trivial] at heq
      split at heq
      · exact Except.noConfusion heq
      · obtain rfl := Except.ok.inj heq
        rfl
    obtain ⟨ps, t0⟩ := st2
    simp only at h2
    subst h2
    have hlen := parseLoop_table_length rest 1 Nat.one_ne_zero ps [] (p, t) hok
      (by intro l _ _ k _; simp) hdist
    have hlen2 : t.length = rest.countP (fun l => pyStrip l != "") := by
      simpa using hlen
    rw [write_csv_eq]
    simp only [List.length_cons, List.length_map]
    omega

/-- C5 witness: two distinct keys give exactly two data rows. -/
theorem C5_row_count_witness :
    (write_csv [1] [(1, [2]), (2, [3])]).length - 1 =
      ["1. 2", "2. 3"].countP (fun l => pyStrip l != "") :=
  C5_row_count "h 1" ["1. 2", "2. 3"] [1] [(1, [2]), (2, [3])] (by decide)
    (by simp [parse, parseLoop, parseStep, pyStrip, pySplit, pySplitAux, isPySpace,
      pyStripDots, floatList, float_, parseFloat, parseFloatCore, parseExp,
      takeDigits, natOfDigits, int_, parseIntString, intDigits, dictInsert])
    (by decide)
